import Mathlib

/-
Verification of pyspark.mllib.regression (python/pyspark/mllib/regression.py).

Numbers: Python floats are modelled as exact rationals (ℚ); the claims under
study are about the algebraic shape of the computations, not rounding.

Vectors: pyspark.mllib.linalg is not part of the sources under verification,
so the vector type and its dot product are modelled from the spec (each such
definition carries a doc comment saying so).  regression.py itself is
translated definition by definition.
-/

namespace PySparkRegression

/-- Modelled from the spec: a pyspark.mllib.linalg vector, either a dense
vector of values or a sparse vector holding a size and (index, value)
entries (pyspark.mllib.linalg is not under the verified sources). -/
inductive Vector where
  | dense (values : List ℚ)
  | sparse (size : ℕ) (entries : List (ℕ × ℚ))
deriving DecidableEq, Repr

/-- Modelled from the spec: the dimensionality of a vector (`len`). -/
def Vector.size : Vector → ℕ
  | .dense values => values.length
  | .sparse n _ => n

/-- Modelled from the spec: dense expansion of sparse entries, as in
SparseVector.toArray — start from a zero array and write each entry's value
at its index. -/
def sparseExpand (n : ℕ) (entries : List (ℕ × ℚ)) : List ℚ :=
  entries.foldr (fun iv arr => arr.set iv.1 iv.2) (List.replicate n 0)

/-- Modelled from the spec: the dense array underlying a vector. -/
def Vector.toDense : Vector → List ℚ
  | .dense values => values
  | .sparse n entries => sparseExpand n entries

/-- The mathematical dot product of two dense coordinate lists (this is the
`w·x` of the spec). -/
def dotMath (a b : List ℚ) : ℚ :=
  (List.zipWith (fun u v => u * v) a b).sum

/-- Modelled from the spec: a sparse operand's dot product — iterate the
(index, value) entries against the other operand's dense coordinates. -/
def sparseDotDense (entries : List (ℕ × ℚ)) (d : List ℚ) : ℚ :=
  entries.foldr (fun iv acc => acc + iv.2 * d.getD iv.1 0) 0

/-- Modelled from the spec: the dot product of pyspark.mllib.linalg vectors.
Two dense operands multiply componentwise; a sparse operand iterates its
entries against the other operand's dense expansion. -/
def Vector.dot : Vector → Vector → ℚ
  | .dense a, .dense b => dotMath a b
  | .sparse _ e, w => sparseDotDense e w.toDense
  | .dense a, .sparse _ e => sparseDotDense e a

/-- A well-formed sparse encoding: entry indices strictly increasing and in
range (the documented invariant of SparseVector); dense vectors are always
well formed. -/
def Vector.Valid : Vector → Prop
  | .dense _ => True
  | .sparse n entries =>
      entries.Pairwise (fun p q => p.1 < q.1) ∧ ∀ p ∈ entries, p.1 < n

instance : DecidablePred Vector.Valid := by
  intro v
  cases v with
  | dense values => exact .isTrue trivial
  | sparse n entries => exact instDecidableAnd

/-- A Python number reaching float(): an int or a float. -/
inductive PyNum where
  | int (z : ℤ)
  | float (q : ℚ)
deriving DecidableEq, Repr

/-- Python's float() coercion into our float model. -/
def pyFloat : PyNum → ℚ
  | .int z => (z : ℚ)
  | .float q => q

/-- A vector-like Python argument: already a linalg vector, or a plain list
of numbers. -/
inductive PyVecLike where
  | vec (v : Vector)
  | list (xs : List PyNum)
deriving DecidableEq, Repr

/-- Modelled from the spec: pyspark.mllib.linalg._convert_to_vector — a
vector is returned unchanged, a list of numbers becomes a dense vector. -/
def convertToVector : PyVecLike → Vector
  | .vec v => v
  | .list xs => .dense (xs.map pyFloat)

/-- LabeledPoint: label coerced by float(), features by _convert_to_vector
(regression.py lines 47-49). -/
structure LabeledPoint where
  label : ℚ
  features : Vector
deriving DecidableEq, Repr

/-- LabeledPoint.__init__(label, features). -/
def LabeledPoint.make (label : PyNum) (features : PyVecLike) : LabeledPoint :=
  { label := pyFloat label, features := convertToVector features }

/-- LinearModel: weights converted by _convert_to_vector into _coeff,
intercept coerced by float() (regression.py lines 70-72). -/
structure LinearModel where
  coeff : Vector
  interceptVal : ℚ
deriving DecidableEq, Repr

/-- LinearModel.__init__(weights, intercept). -/
def LinearModel.make (weights : PyVecLike) (intercept : PyNum) : LinearModel :=
  { coeff := convertToVector weights, interceptVal := pyFloat intercept }

/-- The weights property: returns self._coeff. -/
def LinearModel.weights (m : LinearModel) : Vector := m.coeff

/-- The intercept property: returns self._intercept. -/
def LinearModel.intercept (m : LinearModel) : ℚ := m.interceptVal

/-- LinearRegressionModelBase.predict on a single vector (regression.py
lines 98-106): convert the argument to a vector, then
weights.dot(x) + intercept.  LinearRegressionModel, LassoModel and
RidgeRegressionModel all inherit this predict unchanged. -/
def LinearRegressionModelBase.predict (m : LinearModel) (x : PyVecLike) : ℚ :=
  (LinearModel.weights m).dot (convertToVector x) + LinearModel.intercept m

lemma sparseExpand_nil (n : ℕ) : sparseExpand n [] = List.replicate n 0 := rfl

lemma sparseExpand_cons (n : ℕ) (hd : ℕ × ℚ) (tl : List (ℕ × ℚ)) :
    sparseExpand n (hd :: tl) = (sparseExpand n tl).set hd.1 hd.2 := rfl

lemma length_sparseExpand (n : ℕ) (e : List (ℕ × ℚ)) : (sparseExpand n e).length = n := by
  induction e with
  | nil => simp [sparseExpand_nil]
  | cons hd tl ih => simp [sparseExpand_cons, ih]

lemma getD_set_ne (l : List ℚ) (i j : ℕ) (v : ℚ) (h : i ≠ j) :
    (l.set i v).getD j 0 = l.getD j 0 := by
  simp [List.getD_eq_getElem?_getD, List.getElem?_set_ne h]

lemma getD_sparseExpand_notMem (n : ℕ) (e : List (ℕ × ℚ)) (j : ℕ)
    (h : ∀ p ∈ e, p.1 ≠ j) : (sparseExpand n e).getD j 0 = 0 := by
  induction e with
  | nil =>
      simp only [sparseExpand_nil, List.getD_eq_getElem?_getD, List.getElem?_replicate]
      split <;> simp
  | cons hd tl ih =>
      rw [sparseExpand_cons, getD_set_ne _ _ _ _ (h hd (by simp))]
      exact ih (fun p hp => h p (by simp [hp]))

lemma dotMath_cons_cons (a b : ℚ) (l d : List ℚ) :
    dotMath (a :: l) (b :: d) = a * b + dotMath l d := by
  simp [dotMath]

lemma dotMath_replicate_zero (n : ℕ) (d : List ℚ) :
    dotMath (List.replicate n 0) d = 0 := by
  induction n generalizing d with
  | zero => rfl
  | succ k ih =>
      cases d with
      | nil => rfl
      | cons b d' => simp [List.replicate_succ, dotMath_cons_cons, ih]

lemma dotMath_set (l d : List ℚ) (j : ℕ) (v : ℚ) (hl : j < l.length) (hd : j < d.length) :
    dotMath (l.set j v) d = dotMath l d + (v - l.getD j 0) * d.getD j 0 := by
  induction l generalizing j d with
  | nil => simp at hl
  | cons a l' ih =>
      cases d with
      | nil => simp at hd
      | cons b d' =>
          cases j with
          | zero => simp [dotMath_cons_cons, List.getD]; ring
          | succ k =>
              simp only [List.set, dotMath_cons_cons]
              rw [ih d' k (by simpa using hl) (by simpa using hd)]
              simp [List.getD]
              ring

lemma sparseDotDense_nil (d : List ℚ) : sparseDotDense [] d = 0 := rfl

lemma sparseDotDense_cons (hd : ℕ × ℚ) (tl : List (ℕ × ℚ)) (d : List ℚ) :
    sparseDotDense (hd :: tl) d = sparseDotDense tl d + hd.2 * d.getD hd.1 0 := rfl

lemma sparseDotDense_eq_dotMath (n : ℕ) (e : List (ℕ × ℚ)) (d : List ℚ)
    (hd : d.length = n)
    (hsort : e.Pairwise (fun p q => p.1 < q.1))
    (hrange : ∀ p ∈ e, p.1 < n) :
    sparseDotDense e d = dotMath (sparseExpand n e) d := by
  induction e with
  | nil => simp [sparseDotDense_nil, sparseExpand_nil, dotMath_replicate_zero]
  | cons hd' tl ih =>
      have hsort' := (List.pairwise_cons.mp hsort).2
      have hlt := (List.pairwise_cons.mp hsort).1
      rw [sparseDotDense_cons, sparseExpand_cons,
        dotMath_set _ _ _ _ (by rw [length_sparseExpand]; exact hrange hd' (by simp))
          (by rw [hd]; exact hrange hd' (by simp)),
        getD_sparseExpand_notMem n tl hd'.1 (fun p hp => Nat.ne_of_gt (hlt p hp)),
        ih hsort' (fun p hp => hrange p (by simp [hp]))]
      ring

lemma dotMath_comm (a b : List ℚ) : dotMath a b = dotMath b a := by
  induction a generalizing b with
  | nil => cases b <;> rfl
  | cons x a' ih =>
      cases b with
      | nil => rfl
      | cons y b' => simp [dotMath_cons_cons, ih, mul_comm]

lemma length_toDense (v : Vector) : v.toDense.length = v.size := by
  cases v with
  | dense values => rfl
  | sparse n entries => exact length_sparseExpand n entries

/-- The modelled linalg dot product agrees with the mathematical dot product
of the dense expansions, for well-formed vectors of equal dimensionality. -/
lemma Vector.dot_eq_dotMath (v w : Vector) (hv : v.Valid) (hw : w.Valid)
    (h : v.size = w.size) : v.dot w = dotMath v.toDense w.toDense := by
  cases v with
  | dense a =>
      cases w with
      | dense b => rfl
      | sparse m e =>
          have ha : a.length = m := h
          have heq := sparseDotDense_eq_dotMath m e a ha hw.1 hw.2
          calc Vector.dot (.dense a) (.sparse m e) = sparseDotDense e a := rfl
            _ = dotMath (sparseExpand m e) a := heq
            _ = dotMath a (sparseExpand m e) := dotMath_comm _ _
  | sparse n e =>
      have hlen : w.toDense.length = n := by rw [length_toDense, ← h]; rfl
      exact sparseDotDense_eq_dotMath n e w.toDense hlen hv.1 hv.2

/-- IsotonicRegressionModel.__init__ (regression.py lines 528-531): stores
boundaries, the parallel predictions, and the isotonic flag unchanged. -/
structure IsotonicRegressionModel where
  boundaries : List ℚ
  predictions : List ℚ
  isotonic : Bool
deriving DecidableEq, Repr

/-- Modelled from the spec: numpy.interp(x, xp, fp) on an increasing xp,
taken here on the zipped (boundary, prediction) pairs — fp[0] below the
range, fp[-1] above it, and linear interpolation on the enclosing segment
otherwise (an exact hit at a left endpoint yields that endpoint's fp). -/
def interpPairs (x : ℚ) : List (ℚ × ℚ) → ℚ
  | [] => 0
  | [bp] => bp.2
  | bp1 :: bp2 :: rest =>
    if x ≤ bp1.1 then bp1.2
    else if x < bp2.1 then bp1.2 + (bp2.2 - bp1.2) * (x - bp1.1) / (bp2.1 - bp1.1)
    else interpPairs x (bp2 :: rest)

/-- IsotonicRegressionModel.predict on a scalar (regression.py lines
533-555): np.interp(x, self.boundaries, self.predictions). -/
def IsotonicRegressionModel.predict (m : IsotonicRegressionModel) (x : ℚ) : ℚ :=
  interpPairs x (m.boundaries.zip m.predictions)

lemma interpPairs_head_le (x : ℚ) (hd : ℚ × ℚ) (tl : List (ℚ × ℚ)) (hx : x ≤ hd.1) :
    interpPairs x (hd :: tl) = hd.2 := by
  cases tl <;> simp [interpPairs, hx]

lemma interpPairs_cons_cons_ge (x : ℚ) (hd hd2 : ℚ × ℚ) (rest : List (ℚ × ℚ))
    (h1 : hd.1 < x) (h2 : hd2.1 ≤ x) :
    interpPairs x (hd :: hd2 :: rest) = interpPairs x (hd2 :: rest) := by
  simp [interpPairs, not_le.mpr h1, not_lt.mpr h2]

lemma interpPairs_exact (l : List (ℚ × ℚ))
    (hp : l.Pairwise (fun a b => a.1 < b.1)) :
    ∀ i (hi : i < l.length), interpPairs (l[i].1) l = l[i].2 := by
  induction l with
  | nil => intro i hi; simp at hi
  | cons hd tl ih =>
      intro i hi
      cases i with
      | zero => exact interpPairs_head_le _ hd tl (le_refl _)
      | succ k =>
          have hk : k < tl.length := by simpa using hi
          cases tl with
          | nil => simp at hk
          | cons hd2 rest =>
              have hx1 : hd.1 < ((hd2 :: rest)[k]).1 :=
                (List.pairwise_cons.mp hp).1 _ (List.getElem_mem hk)
              have hx2 : hd2.1 ≤ ((hd2 :: rest)[k]).1 := by
                cases k with
                | zero => simp
                | succ k' =>
                    have hk' : k' < rest.length := by simpa using hk
                    have := (List.pairwise_cons.mp (List.pairwise_cons.mp hp).2).1 _
                      (List.getElem_mem hk')
                    simpa using le_of_lt this
              have hgl : ((hd :: hd2 :: rest)[k+1]) = ((hd2 :: rest)[k]) := by simp
              rw [hgl, interpPairs_cons_cons_ge _ _ _ _ hx1 hx2]
              exact ih (List.pairwise_cons.mp hp).2 k hk

lemma pairwise_head_le_getLast (hd : ℚ × ℚ) (tl : List (ℚ × ℚ))
    (hp : (hd :: tl).Pairwise (fun a b => a.1 < b.1)) :
    hd.1 ≤ ((hd :: tl).getLast (by simp)).1 := by
  have hmem := List.getLast_mem (l := hd :: tl) (by simp)
  rcases List.mem_cons.mp hmem with heq | hmem'
  · exact le_of_eq (by rw [heq])
  · exact le_of_lt ((List.pairwise_cons.mp hp).1 _ hmem')

lemma interpPairs_last (x : ℚ) (l : List (ℚ × ℚ)) (hne : l ≠ [])
    (hp : l.Pairwise (fun a b => a.1 < b.1))
    (hx : (l.getLast hne).1 < x) :
    interpPairs x l = (l.getLast hne).2 := by
  induction l with
  | nil => simp at hne
  | cons hd tl ih =>
      cases tl with
      | nil => simp [interpPairs]
      | cons hd2 rest =>
          have hlast : (hd :: hd2 :: rest).getLast (by simp) =
              (hd2 :: rest).getLast (by simp) := by
            simp [List.getLast]
          have hp' := (List.pairwise_cons.mp hp).2
          have h2 : hd2.1 ≤ x := by
            have := pairwise_head_le_getLast hd2 rest hp'
            rw [hlast] at hx
            exact le_of_lt (lt_of_le_of_lt this hx)
          have h1 : hd.1 < x :=
            lt_of_lt_of_le ((List.pairwise_cons.mp hp).1 hd2 (by simp)) h2
          rw [interpPairs_cons_cons_ge _ _ _ _ h1 h2, hlast]
          exact ih (by simp) hp' (by rw [hlast] at hx; exact hx)

lemma interpPairs_between (l : List (ℚ × ℚ))
    (hp : l.Pairwise (fun a b => a.1 < b.1)) :
    ∀ i (hi : i + 1 < l.length) (x : ℚ), (l[i].1 < x) → (x < (l[i+1]).1) →
      interpPairs x l = l[i].2 + ((l[i+1]).2 - l[i].2) * (x - l[i].1) / ((l[i+1]).1 - l[i].1) := by
  induction l with
  | nil => intro i hi; simp at hi
  | cons hd tl ih =>
      intro i hi x hlo hhi
      cases tl with
      | nil => simp at hi
      | cons hd2 rest =>
          cases i with
          | zero =>
              simp only [List.getElem_cons_zero, List.getElem_cons_succ] at hlo hhi ⊢
              simp [interpPairs, not_le.mpr hlo, hhi]
          | succ k =>
              have hk : k + 1 < (hd2 :: rest).length := by simpa using hi
              simp only [List.getElem_cons_succ] at hlo hhi ⊢
              have h2 : hd2.1 ≤ x := by
                have hhd2 : hd2.1 ≤ ((hd2 :: rest)[k]).1 := by
                  cases k with
                  | zero => simp
                  | succ k' =>
                      have hk' : k' < rest.length := by
                        have := hk; simp at this; omega
                      have := (List.pairwise_cons.mp (List.pairwise_cons.mp hp).2).1 _
                        (List.getElem_mem hk')
                      simpa using le_of_lt this
                exact le_of_lt (lt_of_le_of_lt hhd2 hlo)
              have h1 : hd.1 < x :=
                lt_of_lt_of_le ((List.pairwise_cons.mp hp).1 hd2 (by simp)) h2
              rw [interpPairs_cons_cons_ge _ _ _ _ h1 h2]
              exact ih (List.pairwise_cons.mp hp).2 k hk x hlo hhi

lemma zip_pairwise_fst (b p : List ℚ) (hs : b.Pairwise (fun u v => u < v)) :
    (b.zip p).Pairwise (fun u v : ℚ × ℚ => u.1 < v.1) := by
  rw [List.pairwise_iff_getElem] at hs ⊢
  intro i j hi hj hij
  have hz := List.length_zip b p
  have hib : i < b.length := by rw [hz] at hi; exact lt_of_lt_of_le hi (min_le_left _ _)
  have hjb : j < b.length := by rw [hz] at hj; exact lt_of_lt_of_le hj (min_le_left _ _)
  have := hs i j hib hjb hij
  simpa [List.getElem_zip] using this

lemma zip_length_self (b p : List ℚ) (hlen : p.length = b.length) :
    (b.zip p).length = b.length := by
  rw [List.length_zip, hlen, min_self]

/-- C2: for an isotonic model with non-empty strictly sorted boundaries and
a parallel predictions list, predict returns the co-located prediction at an
exact boundary hit, the first prediction below the minimum boundary, the
last prediction above the maximum boundary, and the linear interpolation
between the two surrounding (boundary, prediction) pairs strictly between
two boundaries. -/
theorem isotonic_predict_piecewise (m : IsotonicRegressionModel) (x : ℚ)
    (hlen : m.predictions.length = m.boundaries.length)
    (hsort : m.boundaries.Pairwise (fun a b => a < b))
    (hne : m.boundaries ≠ []) :
    (∀ i (hb : i < m.boundaries.length) (hp : i < m.predictions.length),
        x = m.boundaries[i] → m.predict x = m.predictions[i]) ∧
    ((hb : 0 < m.boundaries.length) → (hp : 0 < m.predictions.length) →
        x < m.boundaries[0] → m.predict x = m.predictions[0]) ∧
    ((hpne : m.predictions ≠ []) → m.boundaries.getLast hne < x →
        m.predict x = m.predictions.getLast hpne) ∧
    (∀ i (hb : i + 1 < m.boundaries.length) (hp : i + 1 < m.predictions.length),
        m.boundaries[i] < x → x < m.boundaries[i + 1] →
        m.predict x = m.predictions[i] + (m.predictions[i + 1] - m.predictions[i]) *
          (x - m.boundaries[i]) / (m.boundaries[i + 1] - m.boundaries[i])) := by
  have hzl := zip_length_self m.boundaries m.predictions hlen
  have hpz := zip_pairwise_fst m.boundaries m.predictions hsort
  refine ⟨?_, ?_, ?_, ?_⟩
  · intro i hb hp hxeq
    have hi : i < (m.boundaries.zip m.predictions).length := by rw [hzl]; exact hb
    have h1 := interpPairs_exact _ hpz i hi
    simp only [List.getElem_zip] at h1
    show interpPairs x (m.boundaries.zip m.predictions) = m.predictions[i]
    rw [hxeq]
    exact h1
  · intro hb hp hxlt
    have hlne : m.boundaries.zip m.predictions ≠ [] := by
      intro hc
      rw [hc] at hzl
      simp at hzl
      omega
    obtain ⟨hd, tl, hl⟩ := List.exists_cons_of_ne_nil hlne
    have h0 : 0 < (m.boundaries.zip m.predictions).length := by rw [hzl]; exact hb
    have hhd : hd = (m.boundaries[0], m.predictions[0]) := by
      have hq : (m.boundaries.zip m.predictions)[0]? = some hd := by rw [hl]; simp
      have hg : (m.boundaries.zip m.predictions)[0]? =
          some (m.boundaries[0], m.predictions[0]) := by
        rw [List.getElem?_eq_getElem h0, List.getElem_zip]
      exact (Option.some_inj.mp (hq.symm.trans hg))
    show interpPairs x (m.boundaries.zip m.predictions) = m.predictions[0]
    rw [hl, interpPairs_head_le x hd tl (by rw [hhd]; exact le_of_lt hxlt), hhd]
  · intro hpne hxgt
    have hlne : m.boundaries.zip m.predictions ≠ [] := by
      intro hc
      rw [hc] at hzl
      simp at hzl
      exact hne (List.eq_nil_of_length_eq_zero hzl.symm)
    have hbpos : 0 < m.boundaries.length := List.length_pos.mpr hne
    have hlt : (m.boundaries.zip m.predictions).length - 1 < m.boundaries.length := by
      omega
    have hltp : (m.boundaries.zip m.predictions).length - 1 < m.predictions.length := by
      omega
    have h3 : (m.boundaries.zip m.predictions).getLast hlne =
        (m.boundaries[(m.boundaries.zip m.predictions).length - 1],
         m.predictions[(m.boundaries.zip m.predictions).length - 1]) := by
      rw [List.getLast_eq_getElem]
      exact List.getElem_zip
    have h1 : m.boundaries.getLast hne =
        m.boundaries[(m.boundaries.zip m.predictions).length - 1] := by
      rw [List.getLast_eq_getElem]
      congr 1
      omega
    have h2 : m.predictions.getLast hpne =
        m.predictions[(m.boundaries.zip m.predictions).length - 1] := by
      rw [List.getLast_eq_getElem]
      congr 1
      omega
    show interpPairs x (m.boundaries.zip m.predictions) = m.predictions.getLast hpne
    rw [interpPairs_last x _ hlne hpz (by rw [h3]; rw [h1] at hxgt; exact hxgt), h3, h2]
  · intro i hb1 hp1 hlo hhi
    have hi : i + 1 < (m.boundaries.zip m.predictions).length := by rw [hzl]; exact hb1
    have h := interpPairs_between _ hpz i hi x
    simp only [List.getElem_zip] at h
    exact h hlo hhi

/-- Errors raised by the Python layer under verification. -/
inductive PyError where
  | typeError
  | valueError
  | attributeError
deriving DecidableEq, Repr

/-- An element of a training RDD: a LabeledPoint, or any other object
(whose further identity never matters to this layer's checks). -/
inductive PyObj where
  | lp (point : LabeledPoint)
  | nonLp
deriving DecidableEq, Repr

/-- Modelled from the spec: RDD.first — the first element of the distributed
dataset; pyspark's RDD.first raises ValueError on an empty RDD. -/
def rddFirst (data : List PyObj) : Except PyError PyObj :=
  match data with
  | [] => .error .valueError
  | x :: _ => .ok x

/-- _regression_train_wrapper (regression.py lines 184-197), instantiated at
the three linear-regression model classes (the LogisticRegressionModel
branch never applies to them): take data.first(), raise TypeError if it is
not a LabeledPoint, default absent initial weights to
[0.0] * len(data.first().features), convert them to a vector, call the train
function (the remote JVM stub) and wrap the returned (weights, intercept)
pair in the model class. -/
def regressionTrainWrapper (trainFunc : List PyObj → Vector → Vector × ℚ)
    (data : List PyObj) (initialWeights : Option PyVecLike) :
    Except PyError LinearModel :=
  match rddFirst data with
  | .error e => .error e
  | .ok first =>
    match first with
    | .nonLp => .error .typeError
    | .lp point =>
      let iw : PyVecLike :=
        match initialWeights with
        | none => .list (List.replicate point.features.size (.float 0))
        | some w => w
      let wb := trainFunc data (convertToVector iw)
      .ok (LinearModel.make (.vec wb.1) (.float wb.2))

end PySparkRegression

namespace PySparkRegression

/-- C1: for every linear model — LinearRegressionModel, LassoModel and
RidgeRegressionModel all inherit LinearRegressionModelBase.predict
unchanged — with weights w and intercept b, and every well-formed feature
vector of matching dimensionality, dense or sparse, predict(x) equals the
mathematical dot product w·x plus b. -/
theorem linear_predict_eq_dot_plus_intercept (m : LinearModel) (x : Vector)
    (hw : m.coeff.Valid) (hx : x.Valid) (hdim : m.coeff.size = x.size) :
    LinearRegressionModelBase.predict m (PyVecLike.vec x) =
      dotMath (LinearModel.weights m).toDense x.toDense + LinearModel.intercept m := by
  show (LinearModel.weights m).dot x + LinearModel.intercept m = _
  rw [Vector.dot_eq_dotMath (LinearModel.weights m) x hw hx hdim]

/-- Witness for C1 at weights [1, 2], intercept 1/10 and the sparse vector
of size 2 with entries {0: -1, 1: 3}; the prediction evaluates to 51/10. -/
theorem linear_predict_eq_dot_plus_intercept_witness :
    LinearRegressionModelBase.predict ⟨Vector.dense [1, 2], 1/10⟩
        (PyVecLike.vec (Vector.sparse 2 [(0, -1), (1, 3)])) =
      dotMath (LinearModel.weights ⟨Vector.dense [1, 2], 1/10⟩).toDense
          (Vector.sparse 2 [(0, -1), (1, 3)]).toDense +
        LinearModel.intercept ⟨Vector.dense [1, 2], 1/10⟩ ∧
    LinearRegressionModelBase.predict ⟨Vector.dense [1, 2], 1/10⟩
        (PyVecLike.vec (Vector.sparse 2 [(0, -1), (1, 3)])) = 51/10 :=
  ⟨linear_predict_eq_dot_plus_intercept ⟨Vector.dense [1, 2], 1/10⟩
      (Vector.sparse 2 [(0, -1), (1, 3)]) trivial (by decide) (by decide),
   by norm_num [LinearRegressionModelBase.predict, LinearModel.weights,
     LinearModel.intercept, convertToVector, Vector.dot, Vector.toDense,
     sparseDotDense, sparseExpand]⟩

/-- C5 counterexample: training data whose first element is a LabeledPoint
but whose second element is not passes the wrapper's validation — the
wrapper inspects only data.first(), so no type error is raised even though
an element of the data is not of the labeled-point shape. -/
theorem train_wrapper_ignores_later_elements :
    PyObj.nonLp ∈
      [PyObj.lp (LabeledPoint.make (.float 1) (.list [.float 1])), PyObj.nonLp] ∧
    regressionTrainWrapper (fun _ iw => (iw, 0))
        [PyObj.lp (LabeledPoint.make (.float 1) (.list [.float 1])), PyObj.nonLp]
        none ≠
      Except.error PyError.typeError := by
  refine ⟨by simp, ?_⟩
  intro h
  simp [regressionTrainWrapper, rddFirst] at h

/-- C5 amended: the wrapper raises a value error (from RDD.first) exactly
when the training data is empty, and a type error exactly when the first
element of the data is not a LabeledPoint; elements after the first are not
inspected. -/
theorem train_wrapper_validation (trainFunc : List PyObj → Vector → Vector × ℚ)
    (data : List PyObj) (iw : Option PyVecLike) :
    (regressionTrainWrapper trainFunc data iw = Except.error PyError.valueError ↔
      data = []) ∧
    (regressionTrainWrapper trainFunc data iw = Except.error PyError.typeError ↔
      data.head? = some PyObj.nonLp) := by
  cases data with
  | nil => constructor <;> simp [regressionTrainWrapper, rddFirst]
  | cons hd tl =>
      cases hd <;> constructor <;> simp [regressionTrainWrapper, rddFirst]

/-- C6: when the initial weights argument is None, the wrapper forwards to
the training routine a zero vector whose length is the feature
dimensionality of the first training example. -/
theorem train_wrapper_default_initial_weights
    (trainFunc : List PyObj → Vector → Vector × ℚ)
    (point : LabeledPoint) (rest : List PyObj) :
    regressionTrainWrapper trainFunc (PyObj.lp point :: rest) none =
      Except.ok (LinearModel.make
        (.vec (trainFunc (PyObj.lp point :: rest)
          (Vector.dense (List.replicate point.features.size 0))).1)
        (.float (trainFunc (PyObj.lp point :: rest)
          (Vector.dense (List.replicate point.features.size 0))).2)) := by
  simp [regressionTrainWrapper, rddFirst, convertToVector, List.map_replicate, pyFloat]

/-- A DStream argument: a stream of items (elements for predictOn, one RDD
per micro-batch for trainOn), or any object that is not a DStream. -/
inductive PyStream (α : Type) where
  | dstream (items : List α)
  | nonDStream
deriving DecidableEq, Repr

/-- StreamingLinearAlgorithm.predictOn (regression.py lines 611-618):
_validate raises TypeError for a non-DStream argument and ValueError for an
uninitialized (None, hence falsy) model; otherwise the model's predict is
mapped over the stream. -/
def slaPredictOn (model : Option LinearModel) (dstream : PyStream PyVecLike) :
    Except PyError (List ℚ) :=
  match dstream with
  | .nonDStream => .error .typeError
  | .dstream xs =>
    match model with
    | none => .error .valueError
    | some m => .ok (xs.map (fun x => LinearRegressionModelBase.predict m x))

/-- StreamingLinearAlgorithm.predictOnValues (lines 620-627): same checks as
predictOn, then mapValues of the model's predict over a keyed stream. -/
def slaPredictOnValues (model : Option LinearModel)
    (dstream : PyStream (ℚ × PyVecLike)) : Except PyError (List (ℚ × ℚ)) :=
  match dstream with
  | .nonDStream => .error .typeError
  | .dstream kvs =>
    match model with
    | none => .error .valueError
    | some m => .ok (kvs.map (fun kv => (kv.1, LinearRegressionModelBase.predict m kv.2)))

/-- StreamingLinearRegressionWithSGD.__init__ (lines 644-650): stores the
three hyperparameters and an uninitialized (None) current model.  The
constructor assigns nothing else — in particular no convergenceTol
attribute is ever assigned on this class or its base class. -/
structure StreamingLinearRegressionWithSGD where
  stepSize : ℚ
  numIterations : ℕ
  miniBatchFraction : ℚ
  model : Option LinearModel
deriving DecidableEq, Repr

/-- StreamingLinearRegressionWithSGD(stepSize, numIterations,
miniBatchFraction). -/
def StreamingLinearRegressionWithSGD.init (stepSize : ℚ) (numIterations : ℕ)
    (miniBatchFraction : ℚ) : StreamingLinearRegressionWithSGD :=
  { stepSize := stepSize, numIterations := numIterations,
    miniBatchFraction := miniBatchFraction, model := none }

/-- StreamingLinearAlgorithm.latestModel (lines 597-601): returns the
current model field. -/
def StreamingLinearRegressionWithSGD.latestModel
    (s : StreamingLinearRegressionWithSGD) : Option LinearModel := s.model

/-- setInitialWeights (lines 652-660): converts the given weights and stores
LinearRegressionModel(initialWeights, 0) as the current model. -/
def StreamingLinearRegressionWithSGD.setInitialWeights
    (s : StreamingLinearRegressionWithSGD) (initialWeights : PyVecLike) :
    StreamingLinearRegressionWithSGD :=
  { s with
    model := some (LinearModel.make (.vec (convertToVector initialWeights)) (.int 0)) }

/-- Attribute lookup of self.convergenceTol on
StreamingLinearRegressionWithSGD: no method of the class (or of
StreamingLinearAlgorithm) ever assigns this attribute, so the lookup always
fails — none here stands for AttributeError. -/
def StreamingLinearRegressionWithSGD.convergenceTolAttr
    (_ : StreamingLinearRegressionWithSGD) : Option ℚ := none

/-- The per-batch update closure inside trainOn (lines 666-672): an empty
RDD is skipped, leaving the state untouched; a non-empty RDD evaluates the
arguments of LinearRegressionWithSGD.train, among them
self.convergenceTol — an attribute that is never assigned — so the batch
raises AttributeError before any retraining happens.  (Even if the
attribute existed, the call itself would raise TypeError:
LinearRegressionWithSGD.train, lines 202-253, accepts no convergenceTol
keyword.) -/
def StreamingLinearRegressionWithSGD.trainOnUpdate
    (s : StreamingLinearRegressionWithSGD) (rdd : List PyObj) :
    Except PyError StreamingLinearRegressionWithSGD :=
  if rdd.isEmpty then .ok s
  else
    match s.convergenceTolAttr with
    | none => .error .attributeError
    | some _ => .error .typeError

/-- trainOn (lines 662-674): _validate the dstream (TypeError for a
non-DStream, ValueError for an uninitialized model), then run the update
closure on each micro-batch in order. -/
def StreamingLinearRegressionWithSGD.trainOn
    (s : StreamingLinearRegressionWithSGD) (dstream : PyStream (List PyObj)) :
    Except PyError StreamingLinearRegressionWithSGD :=
  match dstream with
  | .nonDStream => .error .typeError
  | .dstream batches =>
    if s.model.isNone then .error .valueError
    else batches.foldlM StreamingLinearRegressionWithSGD.trainOnUpdate s

/-- C3: contrary to the claim (and to the class's own docstring, which
promises that the weights of each batch seed the next), a non-empty
micro-batch never retrains the model: the update closure reads
self.convergenceTol, which __init__ never assigns, so the batch raises
AttributeError and the current model is not reassigned.  Evaluated here at
an initialized model and a one-point batch. -/
theorem streaming_trainOn_nonempty_batch_raises :
    ((StreamingLinearRegressionWithSGD.init (1/10) 50 1).setInitialWeights
        (.vec (Vector.dense [0]))).trainOn
      (PyStream.dstream [[PyObj.lp (LabeledPoint.make (.float 1) (.list [.float 1]))]]) =
      Except.error PyError.attributeError := rfl

/-- C4: with an initialized model, a stream delivering an empty micro-batch
leaves the algorithm state — hence the model returned by latestModel —
unchanged. -/
theorem streaming_trainOn_empty_batch_unchanged
    (s : StreamingLinearRegressionWithSGD) (m : LinearModel)
    (h : s.model = some m) :
    s.trainOn (PyStream.dstream [[]]) = Except.ok s ∧
    ∀ s', s.trainOn (PyStream.dstream [[]]) = Except.ok s' →
      s'.latestModel = s.latestModel := by
  have h1 : s.trainOn (PyStream.dstream [[]]) = Except.ok s := by
    simp [StreamingLinearRegressionWithSGD.trainOn, h,
      StreamingLinearRegressionWithSGD.trainOnUpdate]
  refine ⟨h1, fun s' hs' => ?_⟩
  rw [h1] at hs'
  cases hs'
  rfl

/-- Witness for C4 at a concrete initialized streaming trainer. -/
theorem streaming_trainOn_empty_batch_unchanged_witness :
    ((StreamingLinearRegressionWithSGD.init (1/10) 50 1).setInitialWeights
        (.vec (Vector.dense [0]))).trainOn (PyStream.dstream [[]]) =
      Except.ok ((StreamingLinearRegressionWithSGD.init (1/10) 50 1).setInitialWeights
        (.vec (Vector.dense [0]))) :=
  (streaming_trainOn_empty_batch_unchanged
    ((StreamingLinearRegressionWithSGD.init (1/10) 50 1).setInitialWeights
      (.vec (Vector.dense [0])))
    (LinearModel.make (.vec (Vector.dense [0])) (.int 0)) rfl).1

/-- C7: each streaming operation raises a type error on a non-DStream input
and a value error on an uninitialized model, and in either case returns only
the error — no prediction output is produced and the trainer state is not
updated. -/
theorem streaming_validate_errors (s : StreamingLinearRegressionWithSGD) :
    (s.trainOn PyStream.nonDStream = Except.error PyError.typeError) ∧
    (slaPredictOn s.model PyStream.nonDStream = Except.error PyError.typeError) ∧
    (slaPredictOnValues s.model PyStream.nonDStream = Except.error PyError.typeError) ∧
    (s.model = none →
      (∀ batches, s.trainOn (PyStream.dstream batches) = Except.error PyError.valueError) ∧
      (∀ xs, slaPredictOn s.model (PyStream.dstream xs) = Except.error PyError.valueError) ∧
      (∀ kvs, slaPredictOnValues s.model (PyStream.dstream kvs) =
        Except.error PyError.valueError)) := by
  refine ⟨rfl, rfl, rfl, fun h => ⟨fun batches => ?_, fun xs => ?_, fun kvs => ?_⟩⟩
  · simp [StreamingLinearRegressionWithSGD.trainOn, h]
  · simp [slaPredictOn, h]
  · simp [slaPredictOnValues, h]

/-- Witness for C7 at a freshly constructed (uninitialized) streaming
trainer and concrete stream arguments. -/
theorem streaming_validate_errors_witness :
    (StreamingLinearRegressionWithSGD.init (1/10) 50 1).trainOn PyStream.nonDStream =
      Except.error PyError.typeError ∧
    (StreamingLinearRegressionWithSGD.init (1/10) 50 1).trainOn
        (PyStream.dstream [[PyObj.nonLp]]) = Except.error PyError.valueError ∧
    slaPredictOn (StreamingLinearRegressionWithSGD.init (1/10) 50 1).model
        (PyStream.dstream [PyVecLike.vec (Vector.dense [1])]) =
      Except.error PyError.valueError :=
  ⟨(streaming_validate_errors (StreamingLinearRegressionWithSGD.init (1/10) 50 1)).1,
   ((streaming_validate_errors (StreamingLinearRegressionWithSGD.init (1/10) 50 1)).2.2.2
      rfl).1 [[PyObj.nonLp]],
   ((streaming_validate_errors (StreamingLinearRegressionWithSGD.init (1/10) 50 1)).2.2.2
      rfl).2.1 [PyVecLike.vec (Vector.dense [1])]⟩

/-- Modelled from the spec: the remote engine's saved form of a linear
model — save (regression.py lines 166-169, 313-316, 432-435) constructs the
JVM model from self._coeff and self.intercept and persists it; the on-disk
format itself belongs to the remote engine. -/
structure SavedLinearModel where
  weights : Vector
  intercept : ℚ
deriving DecidableEq, Repr

/-- LinearRegressionModel.save / LassoModel.save / RidgeRegressionModel.save
(identical bodies up to the JVM class): hand (weights, intercept) to the
remote engine. -/
def LinearRegressionModel.save (m : LinearModel) : SavedLinearModel :=
  { weights := m.coeff, intercept := LinearModel.intercept m }

/-- LinearRegressionModel.load / LassoModel.load / RidgeRegressionModel.load
(lines 171-178, 318-325, 437-444): read back the remote model's weights()
and intercept() and rebuild the local wrapper. -/
def LinearRegressionModel.load (st : SavedLinearModel) : LinearModel :=
  LinearModel.make (.vec st.weights) (.float st.intercept)

/-- Modelled from the spec: the remote engine's saved form of an isotonic
model — save (lines 557-562) hands over boundaries, predictions and the
isotonic flag; load (lines 564-570) reads them back. -/
structure SavedIsotonicModel where
  boundaries : List ℚ
  predictions : List ℚ
  isotonic : Bool
deriving DecidableEq, Repr

/-- IsotonicRegressionModel.save (lines 557-562). -/
def IsotonicRegressionModel.save (m : IsotonicRegressionModel) : SavedIsotonicModel :=
  { boundaries := m.boundaries, predictions := m.predictions, isotonic := m.isotonic }

/-- IsotonicRegressionModel.load (lines 564-570). -/
def IsotonicRegressionModel.load (st : SavedIsotonicModel) : IsotonicRegressionModel :=
  { boundaries := st.boundaries, predictions := st.predictions, isotonic := st.isotonic }

/-- C8: load after save restores the model's coefficients exactly — weights
and intercept for linear models, boundaries/predictions/flag for isotonic
models — hence the reloaded model predicts identically on every input
(exactly, in this exact-rational model of floats). -/
theorem save_load_roundtrip (m : LinearModel) (mi : IsotonicRegressionModel)
    (x : PyVecLike) (y : ℚ) :
    LinearRegressionModel.load (LinearRegressionModel.save m) = m ∧
    LinearRegressionModelBase.predict
        (LinearRegressionModel.load (LinearRegressionModel.save m)) x =
      LinearRegressionModelBase.predict m x ∧
    IsotonicRegressionModel.load (IsotonicRegressionModel.save mi) = mi ∧
    (IsotonicRegressionModel.load (IsotonicRegressionModel.save mi)).predict y =
      mi.predict y :=
  ⟨rfl, rfl, rfl, rfl⟩

/-- The places in regression.py where a model object is constructed: the
four trainers (lines 253, 371, 490 through the wrapper's lines 194-197, and
line 585), the four loaders (lines 177, 324, 443, 570), and
StreamingLinearRegressionWithSGD.setInitialWeights (line 659). -/
inductive ModelCreationSite where
  | linearRegressionTrain
  | lassoTrain
  | ridgeTrain
  | isotonicTrain
  | linearRegressionLoad
  | lassoLoad
  | ridgeLoad
  | isotonicLoad
  | streamingSetInitialWeights
deriving DecidableEq, Repr

/-- Whether a creation site is (the wrapper of) a train call. -/
def ModelCreationSite.isTrainCall : ModelCreationSite → Bool
  | .linearRegressionTrain | .lassoTrain | .ridgeTrain | .isotonicTrain => true
  | _ => false

/-- Whether a creation site is a load call. -/
def ModelCreationSite.isLoadCall : ModelCreationSite → Bool
  | .linearRegressionLoad | .lassoLoad | .ridgeLoad | .isotonicLoad => true
  | _ => false

/-- C9 counterexample: setInitialWeights (line 659) constructs a fresh
LinearRegressionModel and installs it as the current model — a model
creation that is neither a train call nor a load call. -/
theorem model_created_outside_train_and_load :
    ((StreamingLinearRegressionWithSGD.init (1/10) 50 1).setInitialWeights
        (.vec (Vector.dense [5]))).latestModel =
      some (LinearModel.make (.vec (Vector.dense [5])) (.int 0)) ∧
    ModelCreationSite.isTrainCall ModelCreationSite.streamingSetInitialWeights = false ∧
    ModelCreationSite.isLoadCall ModelCreationSite.streamingSetInitialWeights = false :=
  ⟨rfl, rfl, rfl⟩

/-- C9 amended: every model-constructing operation of the module is a train
call, a load call, or the streaming trainer's setInitialWeights; none of
the module's operations mutates a constructed model's fields (models are
plain immutable values in this embedding, matching the source, whose model
classes expose no setters). -/
theorem model_creation_sites_enumerated (site : ModelCreationSite) :
    site.isTrainCall = true ∨ site.isLoadCall = true ∨
      site = ModelCreationSite.streamingSetInitialWeights := by
  cases site <;>
    simp [ModelCreationSite.isTrainCall, ModelCreationSite.isLoadCall]

/-- C10: LabeledPoint stores float(label) and _convert_to_vector(features);
LinearModel stores _convert_to_vector(weights) and float(intercept); in
particular an int label or intercept reads back as the corresponding
float. -/
theorem constructors_coerce_fields (label intercept : PyNum)
    (features weights : PyVecLike) (z : ℤ) :
    (LabeledPoint.make label features).label = pyFloat label ∧
    (LabeledPoint.make label features).features = convertToVector features ∧
    (LinearModel.make weights intercept).interceptVal = pyFloat intercept ∧
    (LinearModel.make weights intercept).coeff = convertToVector weights ∧
    (LabeledPoint.make (.int z) features).label = (z : ℚ) ∧
    (LinearModel.make weights (.int z)).interceptVal = (z : ℚ) :=
  ⟨rfl, rfl, rfl, rfl, rfl, rfl⟩

/-- Witness for C2 at the model with boundaries [0, 2] and predictions
[0, 10]: interpolation at 1 gives 5, below-range -1 gives 0, above-range 3
gives 10, and the exact boundary hit at 2 gives 10. -/
theorem isotonic_predict_piecewise_witness :
    IsotonicRegressionModel.predict ⟨[0, 2], [0, 10], true⟩ 1 = 5 ∧
    IsotonicRegressionModel.predict ⟨[0, 2], [0, 10], true⟩ (-1) = 0 ∧
    IsotonicRegressionModel.predict ⟨[0, 2], [0, 10], true⟩ 3 = 10 ∧
    IsotonicRegressionModel.predict ⟨[0, 2], [0, 10], true⟩ 2 = 10 := by
  have hlen : ([0, 10] : List ℚ).length = ([0, 2] : List ℚ).length := rfl
  have hsort : ([0, 2] : List ℚ).Pairwise (fun a b => a < b) := by norm_num
  have hne : ([0, 2] : List ℚ) ≠ [] := by simp
  refine ⟨?_, ?_, ?_, ?_⟩
  · have h := (isotonic_predict_piecewise ⟨[0, 2], [0, 10], true⟩ 1 hlen hsort hne).2.2.2
      0 (by norm_num) (by norm_num) (by norm_num) (by norm_num)
    rw [h]
    norm_num
  · have h := (isotonic_predict_piecewise ⟨[0, 2], [0, 10], true⟩ (-1) hlen hsort hne).2.1
      (by norm_num) (by norm_num) (by norm_num)
    rw [h]
    norm_num
  · have h := (isotonic_predict_piecewise ⟨[0, 2], [0, 10], true⟩ 3 hlen hsort hne).2.2.1
      (by simp) (by norm_num [List.getLast])
    rw [h]
    norm_num [List.getLast]
  · have h := (isotonic_predict_piecewise ⟨[0, 2], [0, 10], true⟩ 2 hlen hsort hne).1
      1 (by norm_num) (by norm_num) (by norm_num)
    rw [h]
    norm_num

end PySparkRegression
